import Mathlib

/-!
Verification development for the Arabic text-shaping adapter
(babeldoc/format/pdf/document_il/utils/rtl.py).

The shallow embedding models:
* the character-range detectors used as shaping gates,
* the ShapingEngine facade shape_text with its memoization cache
  (functools.lru_cache, maxsize 1024, least-recently-used eviction),
* the language-tag classifier is_arabic_language_code,
* the paragraph and composition integration adapters.

The external collaborators (unicodedata.normalize for NFKC,
ArabicReshaper.reshape, bidi get_display) are not part of the
repository; they are modelled as parameters of type
String to Except String String, where an error value models a raised
exception.  Python strings are modelled as Lean Strings; Python
dynamic (possibly non-string) arguments are modelled by the PyVal
inductive further below.
-/

namespace Rtl

/-- A scalar value in the Arabic block U+0600 to U+06FF
(the first range scanned by the gate on line 43 of rtl.py). -/
def isArabicBlockChar (c : Char) : Bool :=
  0x0600 ≤ c.toNat && c.toNat ≤ 0x06FF

/-- A scalar value in the Arabic Presentation Forms-A block
U+FB50 to U+FDFF (the second range scanned on line 43 of rtl.py). -/
def isPresentationAChar (c : Char) : Bool :=
  0xFB50 ≤ c.toNat && c.toNat ≤ 0xFDFF

/-- Python: any(chr(0x600) <= c <= chr(0x6FF) for c in text). -/
def containsArabicMain (s : String) : Bool :=
  s.data.any isArabicBlockChar

/-- Python: any(chr(0xFB50) <= c <= chr(0xFDFF) for c in text). -/
def containsPresentationA (s : String) : Bool :=
  s.data.any isPresentationAChar

/-- The gate of shape_text, rtl.py line 43: the text contains a
code point in U+0600 to U+06FF or in U+FB50 to U+FDFF. -/
def shapeGate (s : String) : Bool :=
  containsArabicMain s || containsPresentationA s

/-- The fixed reshaper configuration built in
ArabicTextShaper._initialize (rtl.py lines 20 to 27). -/
structure ShapingConfiguration where
  delete_harakat : Bool
  support_ligatures : Bool
  rial_sign : Bool
  use_unshaped_instead_of_isolated : Bool
  shapes_file : String
deriving DecidableEq, Repr

/-- The configuration value constructed exactly once for the
singleton instance. -/
def theConfiguration : ShapingConfiguration :=
  { delete_harakat := false
    support_ligatures := true
    rial_sign := true
    use_unshaped_instead_of_isolated := false
    shapes_file := "" }

/-- The three external collaborator capabilities used inside the
try block of shape_text.  An Except.error result models a raised
exception at that call. -/
structure Externals where
  normalize : String → Except String String
  reshape : ShapingConfiguration → String → Except String String
  get_display : String → Except String String

/-- One un-memoized evaluation of the body of
ArabicTextShaper.shape_text (rtl.py lines 31 to 59) on a string
argument.  Returns the result together with the number of external
capability invocations performed (normalize, reshape, get_display
each count one); the count instruments the claims that say the
externals are not consulted on some path.  Exceptions raised by an
external call are caught: the original text is returned. -/
def shape_textRun (ext : Externals) (text : String) : String × Nat :=
  if text = "" then (text, 0)
  else if shapeGate text then
    match ext.normalize text with
    | Except.error _ => (text, 1)
    | Except.ok normalized =>
      match ext.reshape theConfiguration normalized with
      | Except.error _ => (text, 2)
      | Except.ok reshaped =>
        match ext.get_display reshaped with
        | Except.error _ => (text, 3)
        | Except.ok bidi_text => (bidi_text, 3)
  else (text, 0)

/-- The value computed by an un-memoized shape_text call. -/
def shape_textCore (ext : Externals) (text : String) : String :=
  (shape_textRun ext text).1

/-- The memoization cache of shape_text: functools.lru_cache with
maxsize 1024, modelled as an association list ordered most recently
used first. -/
abbrev ShapeCache := List (String × String)

/-- The lru_cache capacity: maxsize=1024 (rtl.py line 30). -/
def cacheMaxsize : Nat := 1024

/-- Cache behaviour on a hit: lru_cache moves the hit entry to the
most-recently-used position; the other entries keep their order. -/
def cacheTouch (c : ShapeCache) (k v : String) : ShapeCache :=
  (k, v) :: c.filter (fun e => !(e.1 == k))

/-- Cache behaviour on a miss: the new entry becomes most recently
used, and if the capacity is now exceeded the least-recently-used
entry (the last one) is evicted.  Only called after a failed lookup,
so the key is not already present. -/
def cacheInsert (c : ShapeCache) (k v : String) : ShapeCache :=
  ((k, v) :: c).take cacheMaxsize

/-- A memoized shape_text call: on a hit the cached value is
returned with no external invocation; on a miss the body runs and
the result is stored.  Returns (value, new cache, number of
external invocations). -/
def shape_text (ext : Externals) (c : ShapeCache) (text : String) :
    String × ShapeCache × Nat :=
  match c.find? (fun e => e.1 == text) with
  | some e => (e.2, cacheTouch c text e.2, 0)
  | none =>
    let r := shape_textRun ext text
    (r.1, cacheInsert c text r.1, r.2)

/-- Every entry of the cache holds the value the un-memoized body
would compute for its key. -/
def CacheValid (ext : Externals) (c : ShapeCache) : Prop :=
  ∀ e ∈ c, e.2 = shape_textCore ext e.1

/-- The cache state produced by a sequence of prior shape_text
calls starting from a given cache. -/
def runCalls (ext : Externals) (c : ShapeCache) : List String → ShapeCache
  | [] => c
  | t :: ts => runCalls ext (shape_text ext c t).2.1 ts

/-- Python str.lower, modelled per code point (the tags in scope
are ASCII, where lower-casing is the A to Z shift Char.toLower
performs). -/
def strLower (s : String) : String :=
  String.mk (s.data.map Char.toLower)

/-- Python str.startswith on the code-point sequence. -/
def strStartsWith (s p : String) : Bool :=
  p.data.isPrefixOf s.data

/-- Python str.endswith on the code-point sequence. -/
def strEndsWith (s p : String) : Bool :=
  p.data.isSuffixOf s.data

/-- is_arabic_language_code (rtl.py lines 69 to 84).  The argument
is an Option to model a Python None tag; None and the empty string
are both falsy, so both return false. -/
def is_arabic_language_code (lang_code : Option String) : Bool :=
  match lang_code with
  | none => false
  | some s =>
    if s = "" then false
    else
      let l := strLower s
      l == "ar" || strStartsWith l "ar-" || strEndsWith l "-ar"

/-- A Python runtime value that can reach shape_text through the
untyped call boundary.  The constructors cover the hashable
primitives (lru_cache requires a hashable argument); a string is
the documented argument type. -/
inductive PyVal where
  | str (s : String)
  | none
  | int (n : Int)
  | bool (b : Bool)
deriving DecidableEq, Repr

/-- Python truthiness for the modelled values: the test performed
by the guard (if not text) on line 33 of rtl.py. -/
def pyFalsy : PyVal → Bool
  | PyVal.str s => s == ""
  | PyVal.none => true
  | PyVal.int n => n == 0
  | PyVal.bool b => !b

/-- Python str() applied to a modelled value. -/
def pyStr : PyVal → String
  | PyVal.str s => s
  | PyVal.none => "None"
  | PyVal.int n => toString n
  | PyVal.bool b => if b then "True" else "False"

/-- The body of ArabicTextShaper.shape_text evaluated on a dynamic
(possibly non-string) argument, rtl.py lines 33 to 59: a falsy
argument is returned unchanged (line 33); a truthy non-string is
coerced with str (line 39, whose else-empty-string arm is written
out literally even though a None argument is falsy and never
reaches it); a truthy string goes through the shaping pipeline.
The memoization layer is value-transparent for a fixed Externals
(see the cache theorems below) and is omitted at this dynamic
level. -/
def shape_textPyBody (ext : Externals) (v : PyVal) : PyVal :=
  if pyFalsy v then v
  else
    match v with
    | PyVal.str s => PyVal.str (shape_textCore ext s)
    | w => if w = PyVal.none then PyVal.str "" else PyVal.str (pyStr w)

/-- A document-model paragraph as seen by the adapter: only its
unicode buffer matters.  An absent attribute and a None value are
both modelled by Option.none. -/
structure Paragraph where
  unicode : Option String
deriving DecidableEq, Repr

/-- The pdf_same_style_unicode_characters sub-object of a
composition. -/
structure UnicodeChars where
  unicode : Option String
deriving DecidableEq, Repr

/-- A document-model composition as seen by the adapter. -/
structure Composition where
  pdf_same_style_unicode_characters : Option UnicodeChars
deriving DecidableEq, Repr

/-- Result of an integration adapter: the (possibly updated)
object, the cache after the call, whether the shaper was invoked
(called), and whether the unicode field was assigned (wrote). -/
structure AdapterResult (α : Type) where
  obj : α
  cache : ShapeCache
  called : Bool
  wrote : Bool
deriving Repr

/-- apply_arabic_shaping_to_paragraph (rtl.py lines 159 to 170):
no-op when the paragraph is falsy, the unicode attribute is absent
or falsy, or the language is not Arabic; otherwise the singleton
shaper runs and the buffer is assigned only when the shaped value
differs from the original. -/
def apply_arabic_shaping_to_paragraph (ext : Externals) (c : ShapeCache)
    (paragraph : Option Paragraph) (lang_code : Option String) :
    AdapterResult (Option Paragraph) :=
  match paragraph with
  | Option.none => ⟨Option.none, c, false, false⟩
  | some par =>
    match par.unicode with
    | Option.none => ⟨some par, c, false, false⟩
    | some u =>
      if u = "" then ⟨some par, c, false, false⟩
      else if is_arabic_language_code lang_code then
        if u ≠ (shape_text ext c u).1 then
          ⟨some { par with unicode := some (shape_text ext c u).1 },
            (shape_text ext c u).2.1, true, true⟩
        else ⟨some par, (shape_text ext c u).2.1, true, false⟩
      else ⟨some par, c, false, false⟩

/-- apply_arabic_shaping_to_composition (rtl.py lines 172 to 192):
no-op when the composition is falsy, the sub-object is absent or
falsy, or its unicode buffer is falsy; the gate is the language tag
or a scan of the buffer for U+0600 to U+06FF (only that block, on
line 183); the buffer is assigned only when the shaped value
differs.  The try block around the shaper cannot fail in the model
because shape_text catches its own exceptions. -/
def apply_arabic_shaping_to_composition (ext : Externals) (c : ShapeCache)
    (composition : Option Composition) (lang_code : Option String) :
    AdapterResult (Option Composition) :=
  match composition with
  | Option.none => ⟨Option.none, c, false, false⟩
  | some comp =>
    match comp.pdf_same_style_unicode_characters with
    | Option.none => ⟨some comp, c, false, false⟩
    | some uc =>
      match uc.unicode with
      | Option.none => ⟨some comp, c, false, false⟩
      | some u =>
        if u = "" then ⟨some comp, c, false, false⟩
        else if is_arabic_language_code lang_code || containsArabicMain u then
          if u ≠ (shape_text ext c u).1 then
            ⟨some ⟨some ⟨some (shape_text ext c u).1⟩⟩,
              (shape_text ext c u).2.1, true, true⟩
          else ⟨some comp, (shape_text ext c u).2.1, true, false⟩
        else ⟨some comp, c, false, false⟩

/-- Fault-injected externals: the reshaping capability always
raises.  Used to witness the failure-containment claims. -/
def extFail : Externals :=
  { normalize := fun s => Except.ok s
    reshape := fun _ _ => Except.error "reshape raised"
    get_display := fun s => Except.ok s }

/-- Healthy externals that change Arabic text visibly: used as the
concrete succeeding collaborator in witnesses. -/
def extOk : Externals :=
  { normalize := fun s => Except.ok s
    reshape := fun _ s => Except.ok s
    get_display := fun s => Except.ok (s ++ "!") }

/-- A one-character Arabic text: the scalar U+0600. -/
def tArabic : String := "؀"

/-- 1024 pairwise distinct one-character non-Arabic texts used to
fill the lru_cache to capacity. -/
def evictTexts : List String :=
  (List.range 1024).map (fun i => String.mk [Char.ofNat (65 + i)])

/-- Cache state after one shape_text call on the Arabic text under
fault-injected externals: the call takes the failure branch and the
fallback entry is stored. -/
def c10CacheAfterFailure : ShapeCache :=
  (shape_text extFail [] tArabic).2.1

/-- Cache state after 1024 further calls with pairwise distinct
non-Arabic texts (externals healthy again): enough insertions to
evict the least-recently-used fallback entry. -/
def c10CacheEvicted : ShapeCache :=
  runCalls extOk c10CacheAfterFailure evictTexts

theorem cacheValid_nil (ext : Externals) : CacheValid ext [] := by
  intro e he
  cases he

theorem cacheValid_touch {ext : Externals} {c : ShapeCache} {k v : String}
    (hv : CacheValid ext c) (h : v = shape_textCore ext k) :
    CacheValid ext (cacheTouch c k v) := by
  intro e he
  rcases List.mem_cons.mp he with rfl | he
  · exact h
  · exact hv e (List.mem_of_mem_filter he)

theorem cacheValid_insert {ext : Externals} {c : ShapeCache} {k v : String}
    (hv : CacheValid ext c) (h : v = shape_textCore ext k) :
    CacheValid ext (cacheInsert c k v) := by
  intro e he
  have he2 : e ∈ (k, v) :: c := List.take_subset _ _ he
  rcases List.mem_cons.mp he2 with rfl | he3
  · exact h
  · exact hv e he3

theorem find?_key_eq {c : ShapeCache} {text : String} {e : String × String}
    (h : c.find? (fun e => e.1 == text) = some e) : e.1 = text := by
  have := List.find?_some h
  simpa using this

/-- On a valid cache, the memoized call returns the value of the
un-memoized body. -/
theorem shape_text_fst {ext : Externals} {c : ShapeCache} {text : String}
    (hv : CacheValid ext c) :
    (shape_text ext c text).1 = shape_textCore ext text := by
  unfold shape_text
  cases hfind : c.find? (fun e => e.1 == text) with
  | none => simp [shape_textCore]
  | some e =>
    have hmem := List.mem_of_find?_eq_some hfind
    have hkey := find?_key_eq hfind
    simp [hv e hmem, hkey]

/-- A memoized call keeps the cache valid. -/
theorem shape_text_valid {ext : Externals} {c : ShapeCache} {text : String}
    (hv : CacheValid ext c) :
    CacheValid ext (shape_text ext c text).2.1 := by
  unfold shape_text
  cases hfind : c.find? (fun e => e.1 == text) with
  | none => exact cacheValid_insert hv rfl
  | some e =>
    have hmem := List.mem_of_find?_eq_some hfind
    have hkey := find?_key_eq hfind
    exact cacheValid_touch hv (by rw [hv e hmem, hkey])

/-- Any sequence of memoized calls keeps the cache valid. -/
theorem runCalls_valid {ext : Externals} (ts : List String) {c : ShapeCache}
    (hv : CacheValid ext c) : CacheValid ext (runCalls ext c ts) := by
  induction ts generalizing c with
  | nil => exact hv
  | cons t ts ih => exact ih (shape_text_valid hv)

/-- C5: for every text, the value returned by shape_text is the
same whether the cache was populated by any sequence of prior calls
or is still empty: a cache hit and a cache miss produce identical
output, so the cache only affects latency, never the result. -/
theorem shape_text_cache_transparent (ext : Externals)
    (prior : List String) (text : String) :
    (shape_text ext (runCalls ext [] prior) text).1 =
      (shape_text ext [] text).1 := by
  rw [shape_text_fst (runCalls_valid prior (cacheValid_nil ext)),
    shape_text_fst (cacheValid_nil ext)]

/-- The un-memoized body returns the original text whenever the
reshaping capability or the reordering capability raises. -/
theorem shape_textCore_of_fail {ext : Externals} (text : String)
    (hfail : (∀ cfg s, ∃ e, ext.reshape cfg s = Except.error e) ∨
      (∀ s, ∃ e, ext.get_display s = Except.error e)) :
    shape_textCore ext text = text := by
  unfold shape_textCore shape_textRun
  split
  · rfl
  split
  · cases hnorm : ext.normalize text with
    | error e => rfl
    | ok normalized =>
      dsimp only
      rcases hfail with hre | hbi
      · obtain ⟨e, he⟩ := hre theConfiguration normalized
        rw [he]
      · cases hres : ext.reshape theConfiguration normalized with
        | error e => rfl
        | ok reshaped =>
          dsimp only
          obtain ⟨e, he⟩ := hbi reshaped
          rw [he]
  · rfl

/-- C1: if the external reshaping capability or the external
bidi-reordering capability raises while shape_text processes a
text, shape_text returns the original input unchanged; no exception
reaches the caller (the model is a total function into String, so
the only way an error could be observed would be a changed result).
The cache may be any cache produced by prior calls (CacheValid). -/
theorem shape_text_failure_containment (ext : Externals) (c : ShapeCache)
    (text : String)
    (hfail : (∀ cfg s, ∃ e, ext.reshape cfg s = Except.error e) ∨
      (∀ s, ∃ e, ext.get_display s = Except.error e))
    (hv : CacheValid ext c) :
    (shape_text ext c text).1 = text := by
  rw [shape_text_fst hv]
  exact shape_textCore_of_fail text hfail

/-- Witness for C1 at a concrete Arabic text and a collaborator
whose reshape always raises. -/
theorem shape_text_failure_containment_witness :
    (shape_text extFail [] "سلام").1 = "سلام" :=
  shape_text_failure_containment extFail [] "سلام"
    (Or.inl fun _ _ => ⟨"reshape raised", rfl⟩) (cacheValid_nil extFail)

/-- C3: a text containing no code point in U+0600 to U+06FF and
none in U+FB50 to U+FDFF is returned exactly, and no external
capability (normalization, reshaping, bidi reordering) is invoked:
the invocation count of the call is zero. -/
theorem shape_text_non_arabic_passthrough (ext : Externals) (c : ShapeCache)
    (text : String)
    (h1 : containsArabicMain text = false)
    (h2 : containsPresentationA text = false)
    (hv : CacheValid ext c) :
    (shape_text ext c text).1 = text ∧ (shape_text ext c text).2.2 = 0 := by
  have hgate : shapeGate text = false := by
    simp [shapeGate, h1, h2]
  have hcore : shape_textCore ext text = text := by
    unfold shape_textCore shape_textRun
    rw [hgate]
    split <;> simp
  constructor
  · rw [shape_text_fst hv, hcore]
  · unfold shape_text
    cases hfind : c.find? (fun e => e.1 == text) with
    | none =>
      simp only
      unfold shape_textRun
      rw [hgate]
      split <;> simp
    | some e => rfl

/-- Witness for C3 at a concrete Latin text. -/
theorem shape_text_non_arabic_passthrough_witness :
    (shape_text extOk [] "Hello World").1 = "Hello World" ∧
      (shape_text extOk [] "Hello World").2.2 = 0 :=
  shape_text_non_arabic_passthrough extOk [] "Hello World"
    (by decide) (by decide) (cacheValid_nil extOk)

/-- C4: is_arabic_language_code returns true exactly when the
lower-cased tag equals ar, starts with ar followed by a hyphen, or
ends with a hyphen followed by ar; a null or empty tag gives false;
and the listed concrete tags classify as the claim states. -/
theorem is_arabic_language_code_spec :
    (∀ s : String, is_arabic_language_code (some s) = true ↔
      (strLower s = "ar" ∨ strStartsWith (strLower s) "ar-" = true ∨
        strEndsWith (strLower s) "-ar" = true)) ∧
    is_arabic_language_code Option.none = false ∧
    is_arabic_language_code (some "") = false ∧
    is_arabic_language_code (some "ar") = true ∧
    is_arabic_language_code (some "AR") = true ∧
    is_arabic_language_code (some "en-ar") = true ∧
    is_arabic_language_code (some "EN-AR") = true ∧
    is_arabic_language_code (some "ar-en") = true ∧
    is_arabic_language_code (some "en") = false ∧
    is_arabic_language_code (some "fr-ca") = false := by
  refine ⟨?_, by decide, by decide, by decide, by decide, by decide,
    by decide, by decide, by decide, by decide⟩
  intro s
  by_cases hs : s = ""
  · subst hs
    decide
  · simp [is_arabic_language_code, hs, or_assoc]

/-- C6: for every paragraph object and every language code that is
not Arabic, apply_arabic_shaping_to_paragraph changes nothing: the
paragraph (and in particular its unicode buffer) is returned as it
came in, the cache is untouched, the shaper is not called and no
assignment happens, even when the buffer holds Arabic-range code
points. -/
theorem apply_to_paragraph_non_arabic_noop (ext : Externals)
    (c : ShapeCache) (paragraph : Option Paragraph)
    (lang_code : Option String)
    (h : is_arabic_language_code lang_code = false) :
    apply_arabic_shaping_to_paragraph ext c paragraph lang_code =
      ⟨paragraph, c, false, false⟩ := by
  unfold apply_arabic_shaping_to_paragraph
  cases paragraph with
  | none => rfl
  | some par =>
    obtain ⟨pu⟩ := par
    cases pu with
    | none => rfl
    | some u =>
      dsimp only
      split
      · rfl
      · simp [h]

/-- Witness for C6: an Arabic-range buffer is left alone under the
language code en. -/
theorem apply_to_paragraph_non_arabic_noop_witness :
    apply_arabic_shaping_to_paragraph extOk [] (some ⟨some "سلام"⟩)
        (some "en") =
      ⟨some ⟨some "سلام"⟩, [], false, false⟩ :=
  apply_to_paragraph_non_arabic_noop extOk [] (some ⟨some "سلام"⟩)
    (some "en") (by decide)

/-- C7 counterexample: a composition whose buffer is the single
presentation-form scalar U+FB50 under a non-Arabic tag.  The claim
predicts shaping is applied (script-range detection covers U+FB50
to U+FDFF), but the composition gate on line 183 of rtl.py scans
only U+0600 to U+06FF, so the shaper is never invoked. -/
theorem apply_to_composition_gate_counterexample :
    ¬ (((apply_arabic_shaping_to_composition extOk []
          (some ⟨some ⟨some "ﭐ"⟩⟩) (some "en")).called = true) ↔
        (is_arabic_language_code (some "en") = true ∨
          shapeGate "ﭐ" = true)) := by
  decide

/-- C7 as amended: for a composition with a non-empty unicode
buffer, the shaper is invoked if and only if the language tag
denotes Arabic or the buffer contains a code point in U+0600 to
U+06FF (the composition gate checks only that block; presentation
forms do not trigger it). -/
theorem apply_to_composition_gate (ext : Externals) (c : ShapeCache)
    (u : String) (lang_code : Option String) (h3 : u ≠ "") :
    ((apply_arabic_shaping_to_composition ext c (some ⟨some ⟨some u⟩⟩)
        lang_code).called = true ↔
      (is_arabic_language_code lang_code = true ∨
        containsArabicMain u = true)) := by
  unfold apply_arabic_shaping_to_composition
  dsimp only
  rw [if_neg h3]
  by_cases hg : (is_arabic_language_code lang_code || containsArabicMain u) = true
  · rw [if_pos hg]
    constructor
    · intro _
      simpa using hg
    · intro _
      split <;> rfl
  · rw [if_neg hg]
    simp only [Bool.or_eq_true] at hg
    push_neg at hg
    simp [hg.1, hg.2]

/-- Witness for the amended C7 at a buffer in the Arabic block with
a missing language tag. -/
theorem apply_to_composition_gate_witness :
    (apply_arabic_shaping_to_composition extOk []
        (some ⟨some ⟨some "سلام"⟩⟩) Option.none).called = true :=
  (apply_to_composition_gate extOk [] "سلام" Option.none
    (by decide)).mpr (Or.inr (by decide))

/-- C8: for both adapters, a shaped value is assigned to the
unicode buffer only when it differs from the original; when the
shaped value equals the original, or the buffer is absent or empty,
no assignment happens; and whenever no assignment happens the
object comes back unchanged. -/
theorem write_back_only_on_change (ext : Externals) (c : ShapeCache)
    (lang_code : Option String) :
    (∀ u : String,
      ((apply_arabic_shaping_to_paragraph ext c (some ⟨some u⟩)
          lang_code).wrote = true → (shape_text ext c u).1 ≠ u) ∧
      ((shape_text ext c u).1 = u →
        (apply_arabic_shaping_to_paragraph ext c (some ⟨some u⟩)
          lang_code).wrote = false)) ∧
    (∀ p : Option Paragraph,
      (apply_arabic_shaping_to_paragraph ext c p lang_code).wrote = false →
      (apply_arabic_shaping_to_paragraph ext c p lang_code).obj = p) ∧
    (apply_arabic_shaping_to_paragraph ext c (some ⟨Option.none⟩)
      lang_code).wrote = false ∧
    (∀ u : String,
      ((apply_arabic_shaping_to_composition ext c (some ⟨some ⟨some u⟩⟩)
          lang_code).wrote = true → (shape_text ext c u).1 ≠ u) ∧
      ((shape_text ext c u).1 = u →
        (apply_arabic_shaping_to_composition ext c (some ⟨some ⟨some u⟩⟩)
          lang_code).wrote = false)) ∧
    (∀ co : Option Composition,
      (apply_arabic_shaping_to_composition ext c co lang_code).wrote = false →
      (apply_arabic_shaping_to_composition ext c co lang_code).obj = co) ∧
    (apply_arabic_shaping_to_composition ext c (some ⟨some ⟨Option.none⟩⟩)
      lang_code).wrote = false := by
  refine ⟨?_, ?_, ?_, ?_, ?_, ?_⟩
  · intro u
    unfold apply_arabic_shaping_to_paragraph
    dsimp only
    constructor
    · intro hw
      by_cases h0 : u = ""
      · rw [if_pos h0] at hw
        simp at hw
      · rw [if_neg h0] at hw
        by_cases ha : is_arabic_language_code lang_code = true
        · rw [if_pos ha] at hw
          by_cases hd : u ≠ (shape_text ext c u).1
          · exact Ne.symm hd
          · rw [if_neg hd] at hw
            simp at hw
        · rw [if_neg ha] at hw
          simp at hw
    · intro he
      by_cases h0 : u = ""
      · rw [if_pos h0]
      · rw [if_neg h0]
        by_cases ha : is_arabic_language_code lang_code = true
        · rw [if_pos ha, if_neg (by simp [he])]
        · rw [if_neg ha]
  · intro p hw
    match p with
    | Option.none => rfl
    | some ⟨Option.none⟩ => rfl
    | some ⟨some u⟩ =>
      unfold apply_arabic_shaping_to_paragraph at hw ⊢
      dsimp only at hw ⊢
      by_cases h0 : u = ""
      · rw [if_pos h0]
      · rw [if_neg h0] at hw ⊢
        by_cases ha : is_arabic_language_code lang_code = true
        · rw [if_pos ha] at hw ⊢
          by_cases hd : u ≠ (shape_text ext c u).1
          · rw [if_pos hd] at hw
            simp at hw
          · rw [if_neg hd]
        · rw [if_neg ha]
  · unfold apply_arabic_shaping_to_paragraph
    rfl
  · intro u
    unfold apply_arabic_shaping_to_composition
    dsimp only
    constructor
    · intro hw
      by_cases h0 : u = ""
      · rw [if_pos h0] at hw
        simp at hw
      · rw [if_neg h0] at hw
        by_cases hg : (is_arabic_language_code lang_code ||
            containsArabicMain u) = true
        · rw [if_pos hg] at hw
          by_cases hd : u ≠ (shape_text ext c u).1
          · exact Ne.symm hd
          · rw [if_neg hd] at hw
            simp at hw
        · rw [if_neg hg] at hw
          simp at hw
    · intro he
      by_cases h0 : u = ""
      · rw [if_pos h0]
      · rw [if_neg h0]
        by_cases hg : (is_arabic_language_code lang_code ||
            containsArabicMain u) = true
        · rw [if_pos hg, if_neg (by simp [he])]
        · rw [if_neg hg]
  · intro co hw
    match co with
    | Option.none => rfl
    | some ⟨Option.none⟩ => rfl
    | some ⟨some ⟨Option.none⟩⟩ => rfl
    | some ⟨some ⟨some u⟩⟩ =>
      unfold apply_arabic_shaping_to_composition at hw ⊢
      dsimp only at hw ⊢
      by_cases h0 : u = ""
      · rw [if_pos h0]
      · rw [if_neg h0] at hw ⊢
        by_cases hg : (is_arabic_language_code lang_code ||
            containsArabicMain u) = true
        · rw [if_pos hg] at hw ⊢
          by_cases hd : u ≠ (shape_text ext c u).1
          · rw [if_pos hd] at hw
            simp at hw
          · rw [if_neg hd]
        · rw [if_neg hg]
  · unfold apply_arabic_shaping_to_composition
    rfl

/-- Witness for C8: under fault-injected externals the shaped
value equals the original Arabic buffer, and the paragraph adapter
performs no assignment. -/
theorem write_back_only_on_change_witness :
    (apply_arabic_shaping_to_paragraph extFail [] (some ⟨some "سلام"⟩)
      (some "ar")).wrote = false :=
  ((write_back_only_on_change extFail [] (some "ar")).1 "سلام").2
    (by decide)

/-- C9 counterexample: the input None is non-text; the claim says
it is coerced to a string (its repr, or failing that the empty
string), but the falsy guard on line 33 of rtl.py returns None
itself, uncoerced. -/
theorem shape_textPy_none_counterexample :
    shape_textPyBody extOk PyVal.none = PyVal.none ∧
      PyVal.none ≠ PyVal.str "None" ∧ PyVal.none ≠ PyVal.str "" := by
  decide

/-- C9 as amended: empty input, and more generally every falsy
input (None, zero, False, the empty string), is returned unchanged
without coercion; a truthy non-string input is coerced to its
string representation; no input raises. -/
theorem shape_textPy_falsy_and_coercion (ext : Externals) (v : PyVal) :
    (pyFalsy v = true → shape_textPyBody ext v = v) ∧
    (pyFalsy v = false → (∀ s, v ≠ PyVal.str s) →
      shape_textPyBody ext v = PyVal.str (pyStr v)) := by
  constructor
  · intro h
    unfold shape_textPyBody
    rw [if_pos h]
  · intro h hns
    unfold shape_textPyBody
    rw [if_neg (by simp [h])]
    cases v with
    | str s => exact absurd rfl (hns s)
    | none => simp [pyFalsy] at h
    | int n => rfl
    | bool b => rfl

/-- Witness for the amended C9: the truthy integer 5 is coerced to
the string 5. -/
theorem shape_textPy_falsy_and_coercion_witness :
    shape_textPyBody extOk (PyVal.int 5) = PyVal.str "5" :=
  ((shape_textPy_falsy_and_coercion extOk (PyVal.int 5)).2 (by decide)
    (fun s => by simp)).trans (by decide)

theorem toNat_ofNat_of_lt {n : Nat} (h : n < 55296) :
    (Char.ofNat n).toNat = n := by
  rw [Char.ofNat, dif_pos (Or.inl h)]
  rfl

theorem evictTexts_mem {t : String} (ht : t ∈ evictTexts) :
    ∃ i, i < 1024 ∧ t = String.mk [Char.ofNat (65 + i)] := by
  simp only [evictTexts, List.mem_map, List.mem_range] at ht
  obtain ⟨i, hi, rfl⟩ := ht
  exact ⟨i, hi, rfl⟩

theorem evictTexts_ne_empty : ∀ t ∈ evictTexts, t ≠ "" := by
  intro t ht
  obtain ⟨i, hi, rfl⟩ := evictTexts_mem ht
  simp [String.ext_iff]

theorem evictTexts_gate : ∀ t ∈ evictTexts, shapeGate t = false := by
  intro t ht
  obtain ⟨i, hi, rfl⟩ := evictTexts_mem ht
  have htou : (Char.ofNat (65 + i)).toNat = 65 + i :=
    toNat_ofNat_of_lt (by omega)
  simp [shapeGate, containsArabicMain, containsPresentationA,
    isArabicBlockChar, isPresentationAChar, htou]
  omega

theorem evictTexts_ne_tArabic : ∀ t ∈ evictTexts, t ≠ tArabic := by
  intro t ht
  obtain ⟨i, hi, rfl⟩ := evictTexts_mem ht
  intro hcontra
  have hd := congrArg String.data hcontra
  have hta : tArabic.data = ['؀'] := rfl
  rw [hta] at hd
  have hd2 : Char.ofNat (65 + i) = '؀' := by simpa using hd
  have hd3 := congrArg Char.toNat hd2
  rw [toNat_ofNat_of_lt (by omega)] at hd3
  have h2 : ('؀' : Char).toNat = 1536 := by decide
  rw [h2] at hd3
  omega

theorem evictTexts_nodup : evictTexts.Nodup := by
  refine List.Nodup.map_on ?_ (List.nodup_range 1024)
  intro i hi j hj he
  simp only [List.mem_range] at hi hj
  have hd := congrArg String.data he
  have hd2 : Char.ofNat (65 + i) = Char.ofNat (65 + j) := by simpa using hd
  have hd3 := congrArg Char.toNat hd2
  rw [toNat_ofNat_of_lt (by omega), toNat_ofNat_of_lt (by omega)] at hd3
  omega

theorem take_append_absorb {α : Type} (l m : List α) (n : Nat) :
    (l ++ m.take n).take n = (l ++ m).take n := by
  rw [List.take_append_eq_append_take, List.take_take,
    Nat.min_eq_left (Nat.sub_le _ _), ← List.take_append_eq_append_take]

/-- A run of memoized calls on pairwise distinct, fresh, non-empty,
gate-failing texts inserts one entry per call at the
most-recently-used end, truncated to the lru_cache capacity. -/
theorem runCalls_fresh (ext : Externals) (ts : List String) :
    ∀ c : ShapeCache,
      (∀ t ∈ ts, t ≠ "") → (∀ t ∈ ts, shapeGate t = false) →
      ts.Nodup → (∀ t ∈ ts, ∀ e ∈ c, e.1 ≠ t) →
      c.length ≤ cacheMaxsize →
      runCalls ext c ts =
        ((ts.reverse.map fun t => (t, t)) ++ c).take cacheMaxsize := by
  induction ts with
  | nil =>
    intro c _ _ _ _ hc
    simp [runCalls, List.take_of_length_le hc]
  | cons t ts ih =>
    intro c hne hg hnd hfresh hc
    have hthead : t ∈ t :: ts := List.mem_cons_self t ts
    have htnotmem : t ∉ ts := (List.nodup_cons.mp hnd).1
    have hmiss : c.find? (fun e => e.1 == t) = none := by
      rw [List.find?_eq_none]
      intro e he
      simp only [beq_iff_eq]
      exact hfresh t hthead e he
    have hrun : shape_textRun ext t = (t, 0) := by
      unfold shape_textRun
      rw [if_neg (hne t hthead), hg t hthead]
      simp
    have hstep : (shape_text ext c t).2.1 = ((t, t) :: c).take cacheMaxsize := by
      unfold shape_text
      rw [hmiss]
      dsimp only
      rw [hrun]
      rfl
    have hunf : runCalls ext c (t :: ts) =
        runCalls ext ((shape_text ext c t).2.1) ts := rfl
    rw [hunf, hstep,
      ih _ (fun x hx => hne x (List.mem_cons_of_mem _ hx))
        (fun x hx => hg x (List.mem_cons_of_mem _ hx))
        ((List.nodup_cons.mp hnd).2)
        (by
          intro x hx e he
          have he2 := List.take_subset _ _ he
          rcases List.mem_cons.mp he2 with rfl | he3
          · intro hcon
            have ht2 : t = x := hcon
            subst ht2
            exact htnotmem hx
          · exact hfresh x (List.mem_cons_of_mem _ hx) e he3)
        (List.length_take_le _ _),
      take_append_absorb]
    congr 1
    rw [List.reverse_cons, List.map_append, List.append_assoc]
    simp

theorem c10CacheAfterFailure_eq :
    c10CacheAfterFailure = [(tArabic, tArabic)] := by
  decide

theorem c10CacheEvicted_eq :
    c10CacheEvicted = evictTexts.reverse.map (fun t => (t, t)) := by
  have hel : evictTexts.length = 1024 := by
    simp [evictTexts]
  have h1 : (evictTexts.reverse.map (fun t => (t, t))).take cacheMaxsize =
      evictTexts.reverse.map (fun t => (t, t)) :=
    List.take_of_length_le (by simp [hel, cacheMaxsize])
  have h2 : cacheMaxsize - (evictTexts.reverse.map (fun t => (t, t))).length = 0 := by
    simp [hel, cacheMaxsize]
  unfold c10CacheEvicted
  rw [c10CacheAfterFailure_eq,
    runCalls_fresh extOk evictTexts [(tArabic, tArabic)]
      evictTexts_ne_empty evictTexts_gate evictTexts_nodup
      (by
        intro t ht e he
        simp only [List.mem_singleton] at he
        subst he
        exact Ne.symm (evictTexts_ne_tArabic t ht))
      (by simp [cacheMaxsize]),
    List.take_append_eq_append_take, h1, h2]
  simp

theorem c10_final_miss :
    c10CacheEvicted.find? (fun e => e.1 == tArabic) = none := by
  rw [c10CacheEvicted_eq, List.find?_eq_none]
  intro e he
  simp only [List.mem_map, List.mem_reverse] at he
  obtain ⟨t, ht, rfl⟩ := he
  simp only [beq_iff_eq]
  exact evictTexts_ne_tArabic t ht

theorem shape_text_miss_eq {ext : Externals} {c : ShapeCache}
    {text : String} (h : c.find? (fun e => e.1 == text) = none) :
    shape_text ext c text =
      ((shape_textRun ext text).1,
        cacheInsert c text (shape_textRun ext text).1,
        (shape_textRun ext text).2) := by
  unfold shape_text
  rw [h]

theorem shape_text_hit_eq {ext : Externals} {c : ShapeCache}
    {text : String} {e : String × String}
    (h : c.find? (fun x => x.1 == text) = some e) :
    shape_text ext c text = (e.2, cacheTouch c text e.2, 0) := by
  unfold shape_text
  rw [h]

/-- C10 counterexample: a shape_text call on the Arabic text under
failing externals takes the failure branch (it reaches the
externals: invocation count 2, normalize then the raising reshape)
and returns the text itself, storing that fallback in the cache;
but after the 1024 distinct-text calls recorded in c10CacheEvicted
the lru_cache (maxsize 1024) has evicted the entry, so a later call
with the same text re-invokes the now-succeeding externals
(invocation count not 0) and no longer returns the original text —
refuting the claim that every later call is served from the cache. -/
theorem shape_text_stale_fallback_counterexample :
    (shape_text extFail [] tArabic).1 = tArabic ∧
    (shape_text extFail [] tArabic).2.2 ≠ 0 ∧
    (shape_text extOk c10CacheEvicted tArabic).2.2 ≠ 0 ∧
    (shape_text extOk c10CacheEvicted tArabic).1 ≠ tArabic := by
  refine ⟨by decide, by decide, ?_, ?_⟩
  · rw [shape_text_miss_eq c10_final_miss]
    decide
  · rw [shape_text_miss_eq c10_final_miss]
    decide

/-- C10 as amended: when a call takes the failure branch (Arabic
gate passed, externals raise) the fallback entry (T, T) is stored
in the cache, and every later call with the same T made while that
entry is still present returns T from the cache with zero external
invocations — even under externals that would now succeed — and
keeps the entry present; the entry can however be evicted by the
LRU policy (capacity 1024), as the counterexample shows, after
which the externals are re-invoked. -/
theorem shape_text_stale_fallback (ext ext' : Externals) (c : ShapeCache)
    (T : String)
    (hmiss : c.find? (fun e => e.1 == T) = none)
    (_hTne : T ≠ "") (_hTgate : shapeGate T = true)
    (hfail : (∀ cfg s, ∃ e, ext.reshape cfg s = Except.error e) ∨
      (∀ s, ∃ e, ext.get_display s = Except.error e)) :
    (shape_text ext c T).1 = T ∧
    (shape_text ext c T).2.1.find? (fun e => e.1 == T) = some (T, T) ∧
    (∀ c2 : ShapeCache, c2.find? (fun e => e.1 == T) = some (T, T) →
      (shape_text ext' c2 T).1 = T ∧ (shape_text ext' c2 T).2.2 = 0 ∧
      (shape_text ext' c2 T).2.1.find? (fun e => e.1 == T) = some (T, T)) := by
  have hcore : shape_textCore ext T = T := shape_textCore_of_fail T hfail
  have hrw : (shape_textRun ext T).1 = T := hcore
  refine ⟨?_, ?_, ?_⟩
  · rw [shape_text_miss_eq hmiss]
    exact hrw
  · rw [shape_text_miss_eq hmiss]
    dsimp only
    rw [hrw]
    unfold cacheInsert
    have hms : cacheMaxsize = 1023 + 1 := rfl
    rw [hms, List.take_succ_cons]
    exact List.find?_cons_of_pos _ (by simp)
  · intro c2 h2
    rw [shape_text_hit_eq h2]
    refine ⟨rfl, rfl, ?_⟩
    dsimp only
    unfold cacheTouch
    exact List.find?_cons_of_pos _ (by simp)

/-- Witness for the amended C10: concrete failing first call, then
a second call under succeeding externals still served from the
cache with zero external invocations. -/
theorem shape_text_stale_fallback_witness :
    (shape_text extFail [] tArabic).1 = tArabic ∧
    (shape_text extOk ((shape_text extFail [] tArabic).2.1) tArabic).1 =
      tArabic ∧
    (shape_text extOk ((shape_text extFail [] tArabic).2.1) tArabic).2.2
      = 0 := by
  have h := shape_text_stale_fallback extFail extOk [] tArabic rfl
    (by decide) (by decide) (Or.inl fun _ _ => ⟨"reshape raised", rfl⟩)
  exact ⟨h.1, (h.2.2 _ h.2.1).1, (h.2.2 _ h.2.1).2.1⟩

end Rtl
